import Mathlib

/-!
Verification of the ContentMapper / UserPreferences backend
(`src/backend/server.py` of the sense-switchboard repository).

Modelling conventions, used throughout:

* Python `float` arithmetic is modelled by exact arithmetic over `ℚ`
  (and, for the two transcendental expressions `220·2^(k/12)` and
  `100·10^(e)`, by the exact exponent together with a noncomputable
  real-valued bridge).  Every claim settled below depends only on values
  at which the float computation is exact, or on purely structural
  facts, so the abstraction is faithful where it is used.
* Python exceptions are modelled by `Except String`; the error string
  records the Python exception raised.
* Python `dict`s are modelled by ordered association lists with Python's
  `update`/`[]=` semantics.
-/

deriving instance DecidableEq for Except

/-- Python `str.isspace` / the default `str.strip` character class:
the Unicode whitespace code points recognised by CPython. -/
def pyIsSpace (c : Char) : Bool :=
  decide ((9 ≤ c.toNat ∧ c.toNat ≤ 13) ∨ (28 ≤ c.toNat ∧ c.toNat ≤ 32) ∨
    c.toNat = 133 ∨ c.toNat = 160 ∨ c.toNat = 5760 ∨
    (8192 ≤ c.toNat ∧ c.toNat ≤ 8202) ∨ c.toNat = 8232 ∨ c.toNat = 8233 ∨
    c.toNat = 8239 ∨ c.toNat = 8287 ∨ c.toNat = 12288)

/-- Python `str.strip()` on a list of characters: drop leading and
trailing whitespace. -/
def pyStripL (l : List Char) : List Char :=
  ((l.dropWhile pyIsSpace).reverse.dropWhile pyIsSpace).reverse

/-- Python `str.strip()`. -/
def pyStrip (s : String) : String :=
  String.mk (pyStripL s.data)

/-- Value of a hexadecimal digit character (`0-9`, `A-F`, `a-f`),
`none` for any other character. -/
def hexDigitVal (c : Char) : Option ℕ :=
  if 48 ≤ c.toNat ∧ c.toNat ≤ 57 then some (c.toNat - 48)
  else if 65 ≤ c.toNat ∧ c.toNat ≤ 70 then some (c.toNat - 55)
  else if 97 ≤ c.toNat ∧ c.toNat ≤ 102 then some (c.toNat - 87)
  else none

/-- The character set `'0123456789ABCDEFabcdef'` used by the source's
hex checks (same set as the digits accepted by `int(·, 16)`). -/
def isHexDigitPy (c : Char) : Bool :=
  (hexDigitVal c).isSome

/-- Digit run of CPython `int(s, 16)` after the first digit: further
digits, with single underscores allowed only between digits. -/
def hexRest (acc : ℕ) : List Char → Option ℕ
  | [] => some acc
  | c :: rest =>
    if c = '_' then
      match rest with
      | [] => none
      | c2 :: rest2 =>
        match hexDigitVal c2 with
        | some d => hexRest (16 * acc + d) rest2
        | none => none
    else
      match hexDigitVal c with
      | some d => hexRest (16 * acc + d) rest
      | none => none

/-- Nonempty hexadecimal digit run (CPython `int(s, 16)` digits part). -/
def hexStart : List Char → Option ℕ
  | [] => none
  | c :: rest =>
    match hexDigitVal c with
    | some d => hexRest d rest
    | none => none

/-- CPython `int(s, 16)` on a character list: optional surrounding
whitespace, optional sign, then a nonempty run of hex digits (with
underscores between digits).  The `0x` prefix form of `int(·, 16)`
cannot occur on the 2-character slices this development applies the
parser to (a bare `0x` has no digits and is rejected by both); non-ASCII
Unicode digit characters are not modelled (no claim involves them).
This is the part after whitespace stripping: optional sign, digits. -/
def pyIntSigned : List Char → Option ℤ
  | [] => none
  | c :: rest =>
    if c = '+' then (hexStart rest).map (fun n => (n : ℤ))
    else if c = '-' then (hexStart rest).map (fun n => -(n : ℤ))
    else (hexStart (c :: rest)).map (fun n => (n : ℤ))

/-- `int(s, 16)` on a character list: strip, then sign and digits. -/
def pyIntHex (l : List Char) : Option ℤ :=
  pyIntSigned (pyStripL l)

/-- `ContentMapper.hex_to_rgb`: strip all leading `'#'` (Python
`lstrip('#')`), duplicate each character if the length is 3, return
`None` unless the length is 6, then parse the three 2-character slices
with `int(·, 16)`; any slice failing to parse yields `None`
(the `try/except ValueError`). -/
def hexCleaned (s : String) : List Char :=
  let t0 := s.data.dropWhile (fun c => c = '#')
  if t0.length = 3 then t0.foldr (fun c acc => c :: c :: acc) [] else t0

/-- The slicing-and-parsing part of `hex_to_rgb` (see `hexCleaned` for
the stripping and expansion). -/
def hexToRgb (s : String) : Option (ℤ × ℤ × ℤ) :=
  let t := hexCleaned s
  if t.length = 6 then
    match pyIntHex (t.take 2), pyIntHex ((t.drop 2).take 2), pyIntHex ((t.drop 4).take 2) with
    | some a, some b, some c => some (a, b, c)
    | _, _, _ => none
  else none

/-- Left-pad a digit string with `'0'` to the given width
(Python zero-padded formatting). -/
def zfill (w : ℕ) (l : List Char) : List Char :=
  List.replicate (w - l.length) '0' ++ l

/-- Python `'{:02x}'.format(n)`: lowercase hexadecimal, total width at
least 2 (the sign of a negative number counts towards the width). -/
def formatHex02 (z : ℤ) : List Char :=
  if z < 0 then '-' :: zfill 1 (Nat.toDigits 16 z.natAbs)
  else zfill 2 (Nat.toDigits 16 z.toNat)

/-- `ContentMapper._get_complementary_color`: re-parse the hex string;
on failure return `'#000000'`, otherwise format `(255-r, 255-g, 255-b)`
as `'#{:02x}{:02x}{:02x}'`. -/
def complementaryColor (s : String) : String :=
  match hexToRgb s with
  | none => "#000000"
  | some (r, g, b) =>
    String.mk ('#' :: (formatHex02 (255 - r) ++ formatHex02 (255 - g) ++ formatHex02 (255 - b)))

example : hexToRgb "#FF0000" = some (255, 0, 0) := by decide
example : hexToRgb "00FF00" = some (0, 255, 0) := by decide
example : hexToRgb "#F00" = some (255, 0, 0) := by decide
example : hexToRgb "GGGGGG" = none := by decide
example : hexToRgb "#12" = none := by decide
example : hexToRgb "#aAbBcC" = some (170, 187, 204) := by decide
example : hexToRgb "-10000" = some (-1, 0, 0) := by decide
example : hexToRgb "##ff0000" = some (255, 0, 0) := by decide
example : hexToRgb " f0000" = some (15, 0, 0) := by decide
example : complementaryColor "ff0000" = "#00ffff" := by decide

/-- Python `round(x, 2)` modelled on exact rationals: scale by 100 and
round half to even (CPython rounds the nearest double; on the exact
values reached by the claims below the two agree, and no claim inspects
a rounded value at a tie). -/
def pyRound2 (q : ℚ) : ℚ :=
  let x := q * 100
  let f : ℤ := ⌊x⌋
  let r : ℚ := x - f
  let z : ℤ :=
    if r < 1/2 then f
    else if 1/2 < r then f + 1
    else if f % 2 = 0 then f else f + 1
  (z : ℚ) / 100

/-- Python builtin `max` on two values (returns the first argument when
equal; the two are indistinguishable for numbers). -/
def pyMax (a b : ℚ) : ℚ := if a < b then b else a

/-- Python builtin `min` on two values. -/
def pyMin (a b : ℚ) : ℚ := if b < a then b else a

/-- `ContentMapper.rgb_to_hsl`: normalise to `[0,1]`, lightness from
max/min, saturation and hue by the standard piecewise formulas.  Python
float division by zero raises `ZeroDivisionError`; the single reachable
division whose denominator can vanish is guarded explicitly and mapped
to `Except.error`. -/
def rgbToHsl (ri gi bi : ℤ) : Except String (ℚ × ℚ × ℚ) :=
  let r : ℚ := (ri : ℚ) / 255
  let g : ℚ := (gi : ℚ) / 255
  let b : ℚ := (bi : ℚ) / 255
  let mx := pyMax r (pyMax g b)
  let mn := pyMin r (pyMin g b)
  let l := (mx + mn) / 2
  if mx = mn then Except.ok (0, 0, l)
  else
    let d := mx - mn
    let denom := if 1/2 < l then 2 - mx - mn else mx + mn
    if denom = 0 then Except.error "ZeroDivisionError: float division by zero"
    else
      let s := d / denom
      let h :=
        if mx = r then ((g - b) / d + (if g < b then (6 : ℚ) else 0)) / 6
        else if mx = g then ((b - r) / d + 2) / 6
        else ((r - g) / d + 4) / 6
      Except.ok (h * 360, s, l)

/-- Result record of `ContentMapper.color_to_sound`.  The Python error
dictionary omits the `volume_modifier` and `complementary` keys and sets
`rgb`/`hsl` to `None`; absent or `None` values are both modelled as
`none`, populated values as `some`. -/
structure ColorSound where
  frequency : ℚ
  waveform : String
  volumeModifier : Option ℚ
  rgb : Option (ℤ × ℤ × ℤ)
  hsl : Option (ℚ × ℚ × ℚ)
  complementary : Option String
  error : Option String
deriving DecidableEq

/-- The record `color_to_sound` returns when `hex_to_rgb` fails. -/
def errorColorSound : ColorSound :=
  { frequency := 440, waveform := "sine", volumeModifier := none,
    rgb := none, hsl := none, complementary := none,
    error := some "Invalid color format" }

/-- `ContentMapper.color_to_sound`: parse, convert to HSL, map hue to a
frequency in `[200,800)`, saturation to the waveform, lightness to a
volume modifier, and attach the complementary colour.  A
`ZeroDivisionError` raised inside `rgb_to_hsl` propagates. -/
def colorSoundOk (s : String) (r g b : ℤ) (hsl : ℚ × ℚ × ℚ) : ColorSound :=
  let h := hsl.1
  let sat := hsl.2.1
  let l := hsl.2.2
  let frequency := 200 + h / 360 * 600
  let waveform :=
    if 7/10 < sat then "sawtooth"
    else if 2/5 < sat then "triangle"
    else "sine"
  let volume := 1/2 + l * (1/2)
  { frequency := pyRound2 frequency, waveform := waveform,
    volumeModifier := some (pyRound2 volume), rgb := some (r, g, b),
    hsl := some (pyRound2 h, pyRound2 sat, pyRound2 l),
    complementary := some (complementaryColor s), error := none }

def colorToSound (s : String) : Except String ColorSound :=
  match hexToRgb s with
  | none => Except.ok errorColorSound
  | some (r, g, b) => (rgbToHsl r g b).map (colorSoundOk s r g b)

example : colorToSound "invalid" = Except.ok errorColorSound := by decide

example : (colorToSound "#FF0000").map (fun c => c.waveform) = Except.ok "sawtooth" := by
  have h : hexToRgb "#FF0000" = some (255, 0, 0) := by decide
  unfold colorToSound
  rw [h]
  norm_num [rgbToHsl, pyMax, pyMin, Except.map, colorSoundOk]

example : (colorToSound "#888888").map (fun c => c.waveform) = Except.ok "sine" := by
  have h : hexToRgb "#888888" = some (136, 136, 136) := by decide
  unfold colorToSound
  rw [h]
  norm_num [rgbToHsl, pyMax, pyMin, Except.map, colorSoundOk]

example : colorToSound "-f0f00" = Except.error "ZeroDivisionError: float division by zero" := by
  have h : hexToRgb "-f0f00" = some (-15, 15, 0) := by decide
  unfold colorToSound
  rw [h]
  norm_num [rgbToHsl, pyMax, pyMin, Except.map, colorSoundOk]

/-- `ContentMapper.PENTATONIC_SCALE`. -/
def pentatonicScale : List ℕ := [0, 2, 4, 7, 9]

/-- `ContentMapper.MAJOR_SCALE`. -/
def majorScale : List ℕ := [0, 2, 4, 5, 7, 9, 11]

/-- `ContentMapper.MINOR_SCALE`. -/
def minorScale : List ℕ := [0, 2, 3, 5, 7, 8, 10]

/-- `ContentMapper._get_scale`: table lookup with silent fallback to the
pentatonic scale on an unknown name. -/
def getScale (name : String) : List ℕ :=
  if name = "pentatonic" then pentatonicScale
  else if name = "major" then majorScale
  else if name = "minor" then minorScale
  else pentatonicScale

/-- Python `str.upper()` on a single character, as a character list.
Modelled exactly on ASCII and on the case mappings the development
reasons about: `'ß'` (U+00DF) uppercases to the two-character `"SS"`,
`'ı'` (U+0131) to `'I'`, `'ſ'` (U+017F) to `'S'`.  All remaining
non-ASCII characters are modelled as fixed points; CPython's full
one-to-one case table is not reproduced, and no theorem below
quantifies over those characters. -/
def pyUpper (c : Char) : List Char :=
  if 97 ≤ c.toNat ∧ c.toNat ≤ 122 then [Char.ofNat (c.toNat - 32)]
  else if c = 'ß' then ['S', 'S']
  else if c = 'ı' then ['I']
  else if c = 'ſ' then ['S']
  else [c]

/-- `ContentMapper.char_to_frequency`, with the frequency represented by
its exact semitone offset `k` above the 220 Hz base (the returned float
is `220·2^(k/12)`; the base-frequency branches are `k = 0` since
`220·2^0 = 220`).  Python computes `ord(char.upper())`; when `upper()`
expands to more than one character `ord` raises a `TypeError`, modelled
as `Except.error`.  The `if not char` branch of the source guards the
empty string, which is outside the single-character domain `Char`. -/
def charCodeToSemis (scale : List ℕ) (code : ℕ) : ℕ :=
  if 65 ≤ code ∧ code ≤ 90 then
    let noteIndex := code - 65
    let scaleIndex := noteIndex % scale.length
    let octaveOffset := (noteIndex / scale.length) * 12
    scale.getD scaleIndex 0 + octaveOffset
  else if 48 ≤ code ∧ code ≤ 57 then
    code - 48
  else
    0

def charToFrequency (scale : List ℕ) (c : Char) : Except String ℕ :=
  match pyUpper c with
  | [u] => Except.ok (charCodeToSemis scale u.toNat)
  | l =>
    Except.error ("TypeError: ord() expected a character, but string of length "
      ++ toString l.length ++ " found")

/-- The frequency in Hz denoted by a semitone offset above 220 Hz. -/
noncomputable def freqOfSemis (k : ℕ) : ℝ :=
  220 * (2 : ℝ) ^ ((k : ℝ) / 12)

example : charToFrequency pentatonicScale 'A' = Except.ok 0 := by decide
example : charToFrequency pentatonicScale 'a' = Except.ok 0 := by decide
example : charToFrequency pentatonicScale '@' = Except.ok 0 := by decide
example : charToFrequency pentatonicScale '0' = Except.ok 0 := by decide
example : charToFrequency pentatonicScale 'ı' = Except.ok 19 := by decide
example : charToFrequency pentatonicScale 'ß'
    = Except.error "TypeError: ord() expected a character, but string of length 2 found" := by
  decide

/-- The note-name table of `_frequency_to_note`, indexed modulo 12
(the source stores it as a 12-element list). -/
def noteNames (i : ℕ) : String :=
  match i with
  | 0 => "C"
  | 1 => "C#"
  | 2 => "D"
  | 3 => "D#"
  | 4 => "E"
  | 5 => "F"
  | 6 => "F#"
  | 7 => "G"
  | 8 => "G#"
  | 9 => "A"
  | 10 => "A#"
  | 11 => "B"
  | _ => ""

/-- `ContentMapper._frequency_to_note` at the frequency `220·2^(k/12)`:
the source computes `round(12·log2(freq/440) + 69)`, which at these
frequencies is exactly `k + 57` (the float error is far below the
rounding threshold), then indexes the note table modulo 12 and derives
the octave. -/
def noteName (k : ℕ) : String :=
  noteNames ((k + 57) % 12) ++ toString ((k + 57) / 12 - 1)

/-- One entry of the `text_to_frequencies` result.  The `frequency`
field of the Python dictionary is represented by `semis`: `none` is the
literal `0` of the whitespace branch, `some k` the rounded
`220·2^(k/12)` of the sounding branch. -/
structure FrequencyMapping where
  index : ℕ
  char : Char
  semis : Option ℕ
  note : String
  duration : ℚ
deriving DecidableEq

/-- Loop body of `ContentMapper.text_to_frequencies`, carrying the
enumeration index.  A `TypeError` raised by `char_to_frequency`
propagates and aborts the whole call (Python raises out of the loop). -/
def textToFreqAux (scale : List ℕ) : ℕ → List Char → Except String (List FrequencyMapping)
  | _, [] => Except.ok []
  | i, c :: cs =>
    if pyIsSpace c then
      (textToFreqAux scale (i + 1) cs).map
        (fun rest => { index := i, char := c, semis := none, note := "rest", duration := 1/10 } :: rest)
    else
      match charToFrequency scale c with
      | Except.error e => Except.error e
      | Except.ok k =>
        (textToFreqAux scale (i + 1) cs).map
          (fun rest => { index := i, char := c, semis := some k, note := noteName k, duration := 1/5 } :: rest)

/-- `ContentMapper.text_to_frequencies`: one entry per character, in
input order; `char.strip()` being empty (i.e. the character is
whitespace) selects the rest branch. -/
def textToFrequencies (scale : List ℕ) (s : String) : Except String (List FrequencyMapping) :=
  textToFreqAux scale 0 s.data

example : textToFrequencies pentatonicScale "" = Except.ok [] := by decide
example : (textToFrequencies pentatonicScale "A B").map (fun l => l.map (fun m => m.note))
    = Except.ok ["A3", "rest", "B3"] := by decide
example : textToFrequencies pentatonicScale "ß"
    = Except.error "TypeError: ord() expected a character, but string of length 2 found" := by
  decide

/-- A Python `float` value as produced by `float(str)`: a finite value
(modelled exactly as a rational, abstracting the rounding to the nearest
double, on which no claim depends), or one of the non-finite values. -/
inductive PyFloat where
  | finite (q : ℚ)
  | inf
  | negInf
  | nan
deriving DecidableEq

/-- Whether a `PyFloat` is finite. -/
def PyFloat.isFinite : PyFloat → Bool
  | .finite _ => true
  | _ => false

/-- Decimal digit run of CPython float/int literals: digits with single
underscores only between digits.  Returns the value and the number of
digits consumed (underscores excluded). -/
def decRest (acc : ℕ) (cnt : ℕ) : List Char → Option (ℕ × ℕ)
  | [] => some (acc, cnt)
  | c :: rest =>
    if c = '_' then
      match rest with
      | [] => none
      | c2 :: rest2 =>
        if 48 ≤ c2.toNat ∧ c2.toNat ≤ 57 then
          decRest (10 * acc + (c2.toNat - 48)) (cnt + 1) rest2
        else none
    else
      if 48 ≤ c.toNat ∧ c.toNat ≤ 57 then
        decRest (10 * acc + (c.toNat - 48)) (cnt + 1) rest
      else none

/-- Nonempty decimal digit run. -/
def decStart : List Char → Option (ℕ × ℕ)
  | [] => none
  | c :: rest =>
    if 48 ≤ c.toNat ∧ c.toNat ≤ 57 then
      decRest (c.toNat - 48) 1 rest
    else none

/-- Split a character list at the first occurrence of a character
satisfying `p`: returns the prefix and the remainder including the
matching character. -/
def splitAtChar (p : Char → Bool) : List Char → (List Char × List Char)
  | [] => ([], [])
  | c :: rest =>
    if p c then ([], c :: rest)
    else
      let (a, b) := splitAtChar p rest
      (c :: a, b)

/-- Mantissa of a CPython float literal: `digits`, `digits.`,
`digits.digits` or `.digits` (underscores between digits). -/
def parseMantissa (l : List Char) : Option ℚ :=
  let (ip, rest) := splitAtChar (fun c => c = '.') l
  match rest with
  | [] =>
    match decStart ip with
    | some (v, _) => some (v : ℚ)
    | none => none
  | _ :: fp =>
    match ip, fp with
    | [], [] => none
    | [], _ =>
      match decStart fp with
      | some (v, n) => some ((v : ℚ) / (10 : ℚ) ^ n)
      | none => none
    | _, [] =>
      match decStart ip with
      | some (v, _) => some (v : ℚ)
      | none => none
    | _, _ =>
      match decStart ip, decStart fp with
      | some (vi, _), some (vf, nf) => some ((vi : ℚ) + (vf : ℚ) / (10 : ℚ) ^ nf)
      | _, _ => none

/-- Exponent part of a CPython float literal (after `e`/`E`): optional
sign and a nonempty digit run. -/
def parseExponent (l : List Char) : Option ℤ :=
  match l with
  | '+' :: rest => (decStart rest).map (fun p => (p.1 : ℤ))
  | '-' :: rest => (decStart rest).map (fun p => -(p.1 : ℤ))
  | rest => (decStart rest).map (fun p => (p.1 : ℤ))

/-- Unsigned body of `float(str)`: `inf`, `infinity` and `nan` in any
letter case, or decimal notation with an optional exponent. -/
def parseFloatBody (l : List Char) : Option PyFloat :=
  let low := l.map Char.toLower
  if low = ['i', 'n', 'f'] ∨ low = ['i', 'n', 'f', 'i', 'n', 'i', 't', 'y'] then
    some PyFloat.inf
  else if low = ['n', 'a', 'n'] then
    some PyFloat.nan
  else
    let (m, rest) := splitAtChar (fun c => c = 'e' ∨ c = 'E') l
    match rest with
    | [] => (parseMantissa m).map PyFloat.finite
    | _ :: er =>
      match parseMantissa m, parseExponent er with
      | some v, some e => some (PyFloat.finite (v * (10 : ℚ) ^ e))
      | _, _ => none

/-- Negate a `PyFloat` (Python `-0.0` and `-nan` are not distinguished
from their positive counterparts by anything this development states). -/
def PyFloat.negate : PyFloat → PyFloat
  | .finite q => .finite (-q)
  | .inf => .negInf
  | .negInf => .inf
  | .nan => .nan

/-- CPython `float(str)`: optional surrounding whitespace, optional
sign, then `inf`/`infinity`/`nan` (any case) or decimal/exponent
notation.  Non-ASCII Unicode digit characters are not modelled. -/
def pyParseFloat (s : String) : Option PyFloat :=
  match pyStripL s.data with
  | [] => none
  | c :: rest =>
    if c = '+' then parseFloatBody rest
    else if c = '-' then (parseFloatBody rest).map PyFloat.negate
    else parseFloatBody (c :: rest)

example : pyParseFloat "42" = some (PyFloat.finite 42) := by decide
example : pyParseFloat "-17" = some (PyFloat.finite (-17)) := by decide
example : pyParseFloat "nan" = some PyFloat.nan := by decide
example : pyParseFloat "+Inf" = some PyFloat.inf := by decide
example : pyParseFloat "-INFINITY" = some PyFloat.negInf := by decide
example : pyParseFloat "hello" = none := by decide
example : pyParseFloat "" = none := by decide
example : (pyParseFloat "1e3").isSome = true := by decide
example : (pyParseFloat "3.14").isSome = true := by decide
example : pyParseFloat "1e" = none := by decide
example : pyParseFloat "." = none := by decide

/-- Python `abs` on a number. -/
def pyAbs (q : ℚ) : ℚ := if q < 0 then -q else q

/-- Python `%` on finite floats (divisor a nonzero constant in the
source): `x - y*floor(x/y)`, the result carrying the sign of the
divisor.  Exact on the rational model; CPython computes the same value
exactly whenever it is representable. -/
def pyModQ (x y : ℚ) : ℚ := x - y * (⌊x / y⌋ : ℤ)

/-- Python `min` on two integers. -/
def pyMinI (a b : ℤ) : ℤ := if b < a then b else a

/-- The `visual` sub-dictionary of `number_to_pattern`. -/
structure PatternVisual where
  sides : ℤ
  rotationSpeed : ℚ
  colorHue : ℚ
  particleCount : ℤ
deriving DecidableEq

/-- Result record of `ContentMapper.number_to_pattern`.  The `frequency`
field `100 * 10**((abs_num % 100)/100)` is transcendental; it is
represented by its exact exponent `freqExp = (abs_num % 100)/100`
(see `patternFrequency`). -/
structure PatternResult where
  freqExp : ℚ
  pattern : String
  oscillatorCount : ℤ
  visual : PatternVisual
  isNegative : Bool
  magnitude : ℚ
deriving DecidableEq

/-- The frequency in Hz denoted by a `PatternResult.freqExp`. -/
noncomputable def patternFrequency (p : PatternResult) : ℝ :=
  100 * (10 : ℝ) ^ (p.freqExp : ℝ)

/-- `ContentMapper.number_to_pattern` on a finite number: divisibility
of the original signed number selects the pattern in the order
7 / 5 / 3 / 2, the remaining fields are derived from the absolute
value.  `int(·)` on a nonnegative float is the floor. -/
def numberToPattern (number : ℚ) : PatternResult :=
  let absNum := pyAbs number
  let pattern :=
    if pyModQ number 7 = 0 then "wave"
    else if pyModQ number 5 = 0 then "sweep"
    else if pyModQ number 3 = 0 then "arpeggio"
    else if pyModQ number 2 = 0 then "pulse"
    else "steady"
  { freqExp := pyModQ absNum 100 / 100,
    pattern := pattern,
    oscillatorCount := pyMinI (⌊absNum / 10⌋ + 1) 5,
    visual :=
      { sides := 3 + ⌊absNum⌋ % 7,
        rotationSpeed := pyModQ absNum 10 + 1,
        colorHue := pyModQ (absNum * 30) 360,
        particleCount := pyMinI ⌊absNum⌋ 100 },
    isNegative := decide (number < 0),
    magnitude := absNum }

/-- `number_to_pattern` on an arbitrary `float`.  On non-finite input
the modular checks are all false (`nan == 0` and `inf % k = nan`), and
the later `int(abs_num)` raises: `ValueError` for `nan`, `OverflowError`
for the infinities. -/
def numberToPatternF : PyFloat → Except String PatternResult
  | PyFloat.finite q => Except.ok (numberToPattern q)
  | PyFloat.nan => Except.error "ValueError: cannot convert float NaN to integer"
  | PyFloat.inf => Except.error "OverflowError: cannot convert float infinity to integer"
  | PyFloat.negInf => Except.error "OverflowError: cannot convert float infinity to integer"

/-- Helper to evaluate concrete floors of rationals. -/
theorem floorEq (q : ℚ) (z : ℤ) (h1 : (z : ℚ) ≤ q) (h2 : q < z + 1) : ⌊q⌋ = z :=
  Int.floor_eq_iff.mpr ⟨h1, by exact_mod_cast h2⟩

example : (numberToPattern 49).pattern = "wave" := by
  have h : ⌊(49 : ℚ) / 7⌋ = 7 := floorEq _ _ (by norm_num) (by norm_num)
  simp [numberToPattern, pyModQ, h]
  norm_num

example : (numberToPattern (-10)).isNegative = true := by
  norm_num [numberToPattern]

example : (numberToPattern (-10)).magnitude = 10 := by
  norm_num [numberToPattern, pyAbs]

/-- Input of `detect_content_type`: the route passes an arbitrary JSON
value; every non-string input (truthy or falsy) takes the
`unknown` branch, so non-strings are collapsed to one constructor. -/
inductive PyInput where
  | strVal (s : String)
  | nonStr
deriving DecidableEq

/-- The `value` field of a detection result. -/
inductive DetValue where
  | null
  | strV (s : String)
  | numV (v : PyFloat)
deriving DecidableEq

/-- Result record of `detect_content_type`. -/
structure Detected where
  type : String
  value : DetValue
deriving DecidableEq

/-- The hex-colour test of `detect_content_type` on the stripped
content: starts with `'#'` and the remainder has length 3 or 6 with
every character in `'0123456789ABCDEFabcdef'`. -/
def isColorString (t : List Char) : Bool :=
  match t with
  | '#' :: hp => ((hp.length = 3 ∨ hp.length = 6) ∧ hp.all isHexDigitPy : Bool)
  | _ => false

/-- `ContentMapper.detect_content_type`: non-strings and the empty
string are unknown; otherwise strip, test for a hex colour, then try
`float(·)`, then fall back to text; a whitespace-only string reaches
the final unknown branch. -/
def detectContentType : PyInput → Detected
  | PyInput.nonStr => { type := "unknown", value := DetValue.null }
  | PyInput.strVal s =>
    if s = "" then { type := "unknown", value := DetValue.null }
    else
      let t := pyStripL s.data
      if isColorString t then { type := "color", value := DetValue.strV (String.mk t) }
      else
        match pyParseFloat (String.mk t) with
        | some v => { type := "number", value := DetValue.numV v }
        | none =>
          if t ≠ [] then { type := "text", value := DetValue.strV (String.mk t) }
          else { type := "unknown", value := DetValue.null }

example : detectContentType (PyInput.strVal "#FF0000")
    = { type := "color", value := DetValue.strV "#FF0000" } := by decide
example : detectContentType (PyInput.strVal "#F00")
    = { type := "color", value := DetValue.strV "#F00" } := by decide
example : detectContentType (PyInput.strVal "42")
    = { type := "number", value := DetValue.numV (PyFloat.finite 42) } := by decide
example : detectContentType (PyInput.strVal "hello")
    = { type := "text", value := DetValue.strV "hello" } := by decide
example : detectContentType (PyInput.strVal "")
    = { type := "unknown", value := DetValue.null } := by decide
example : detectContentType (PyInput.strVal "   ")
    = { type := "unknown", value := DetValue.null } := by decide
example : detectContentType PyInput.nonStr
    = { type := "unknown", value := DetValue.null } := by decide
example : detectContentType (PyInput.strVal "  42  ")
    = { type := "number", value := DetValue.numV (PyFloat.finite 42) } := by decide

/-- The `mapping` part of a `/api/map/auto` response. -/
inductive AutoMapping where
  | textMapping (mappings : List FrequencyMapping) (totalDuration : ℚ)
  | colorMapping (c : ColorSound)
  | numberMapping (p : PatternResult)
  | empty
deriving DecidableEq

/-- Result record of `map_auto`. -/
structure AutoResult where
  detected : Detected
  mapping : AutoMapping
deriving DecidableEq

/-- The `total_duration` sum of `map_text` / `map_auto` (the source
recomputes `text_to_frequencies` for the sum; the recomputation is pure
and yields the same list, so it is evaluated once here). -/
def sumDurations (l : List FrequencyMapping) : ℚ :=
  l.foldl (fun a m => a + m.duration) 0

/-- The `/api/map/auto` handler `map_auto`: detect, then dispatch on the
detected type; each detected type carries the matching value shape by
construction of `detect_content_type`, and the unknown case maps to an
empty mapping.  Exceptions raised by the conversion functions
propagate. -/
def mapAuto (scale : List ℕ) (content : PyInput) : Except String AutoResult :=
  let d := detectContentType content
  match d with
  | { type := "text", value := DetValue.strV s } =>
    (textToFrequencies scale s).map
      (fun ms => { detected := d, mapping := AutoMapping.textMapping ms (sumDurations ms) })
  | { type := "color", value := DetValue.strV s } =>
    (colorToSound s).map
      (fun c => { detected := d, mapping := AutoMapping.colorMapping c })
  | { type := "number", value := DetValue.numV v } =>
    (numberToPatternF v).map
      (fun p => { detected := d, mapping := AutoMapping.numberMapping p })
  | _ => Except.ok { detected := d, mapping := AutoMapping.empty }

example : mapAuto pentatonicScale (PyInput.strVal "nan")
    = Except.error "ValueError: cannot convert float NaN to integer" := by decide
example : mapAuto pentatonicScale (PyInput.strVal "-inf")
    = Except.error "OverflowError: cannot convert float infinity to integer" := by decide
example : mapAuto pentatonicScale PyInput.nonStr
    = Except.ok ⟨⟨"unknown", DetValue.null⟩, AutoMapping.empty⟩ := by decide

/-- A JSON-style value stored in a preference record (the shapes the
preference API reads and writes). -/
inductive PVal where
  | num (q : ℚ)
  | str (s : String)
  | bool (b : Bool)
  | null
  | list (l : List PVal)
  | obj (l : List (String × PVal))

/-- A Python dictionary with string keys, as an ordered association
list (keys unique by construction in every state the API produces). -/
abbrev Record := List (String × PVal)

/-- Python `d.get(k)` / `d[k]`: first entry with the given key
(keys are unique in every state the modelled API produces). -/
def dictGet {α : Type} (d : List (String × α)) (k : String) : Option α :=
  match d with
  | [] => none
  | (k2, v) :: rest => if k2 = k then some v else dictGet rest k

/-- Python `d[k] = v`: replace the value at an existing key in place,
otherwise append the new binding. -/
def dictSet {α : Type} (d : List (String × α)) (k : String) (v : α) :
    List (String × α) :=
  if d.any (fun e => e.1 = k) then
    d.map (fun e => if e.1 = k then (k, v) else e)
  else d ++ [(k, v)]

/-- Python `d.update(p)`: set each binding of `p` in order. -/
def dictUpdate (d p : Record) : Record :=
  p.foldl (fun acc e => dictSet acc e.1 e.2) d

/-- The in-memory store of `UserPreferences.preferences`: hashed user id
to preference record.  File persistence (`_load_preferences` /
`_save_preferences`) is best-effort external I/O and is abstracted into
this state. -/
abbrev Store := List (String × Record)

/-- Lookup in the store (`self.preferences.get(hashed_id, ...)`). -/
def storeGet (st : Store) (k : String) : Option Record :=
  dictGet st k

/-- `self.preferences[hashed_id] = current`. -/
def storeSet (st : Store) (k : String) (v : Record) : Store :=
  dictSet st k v

/-- Modelled from the spec: `UserPreferences._get_user_id` applies
`hashlib.sha256(identifier.encode()).hexdigest()[:16]`, an external
crypto primitive with no implementation in `src/`; the spec describes it
as a stable one-way digest used only as a storage key.  It is modelled
as the identity key derivation: every claim below depends only on the
derivation being a deterministic function applied consistently by
`get_preferences`, `set_preferences` and `add_preset`. -/
def getUserId (identifier : String) : String := identifier

/-- The default preference record returned for an unknown user. -/
def defaultPrefs : Record :=
  [("volume", PVal.num 50), ("speed", PVal.num 5), ("intensity", PVal.num 70),
   ("scale", PVal.str "pentatonic"), ("presets", PVal.list [])]

/-- `UserPreferences.get_preferences`: the stored record for the hashed
id, or the documented defaults. -/
def getPreferences (st : Store) (userId : String) : Record :=
  (storeGet st (getUserId userId)).getD defaultPrefs

/-- `UserPreferences.set_preferences`: shallow-merge the given record
into the current one, store it, and return it. -/
def setPreferences (st : Store) (userId : String) (prefs : Record) : Store × Record :=
  let current := getPreferences st userId
  let merged := dictUpdate current prefs
  (storeSet st (getUserId userId) merged, merged)

/-- Simple rolling hash of a string, bounded by `2^256`. -/
def strHash (s : String) : ℕ :=
  s.data.foldl (fun a c => (a * 131 + c.toNat) % (2 ^ 256)) 5

/-- Shallow structural code of a stored value, used by `recHash`. -/
def pvalTag : PVal → ℕ
  | PVal.num q => 2 + 3 * (q.num.natAbs * 2 + (if q.num < 0 then 1 else 0)) + 5 * q.den
  | PVal.str s => 3 + 7 * strHash s
  | PVal.bool b => if b then 7 else 11
  | PVal.null => 5
  | PVal.list l => 13 + 17 * l.length
  | PVal.obj l => 19 + 23 * l.length

/-- Modelled from the spec: the preset identifier source
`hashlib.sha256(json.dumps(preset).encode()).hexdigest()` serialises the
preset and digests it with SHA-256, both external primitives with no
implementation in `src/`.  It is modelled as a deterministic 64-hex-digit
digest of the record; the claims depend only on the digest being a
deterministic derivation from the preset's content of at least 8
characters. -/
def recHash (r : Record) : ℕ :=
  r.foldl (fun a e => (a * 1009 + strHash e.1 * 31 + pvalTag e.2) % (2 ^ 256)) 7

/-- Fixed-width little-endian hexadecimal digits. -/
def hexFixed : ℕ → ℕ → List Char
  | 0, _ => []
  | k + 1, n => (Nat.toDigits 16 (n % 16)).headD '0' :: hexFixed k (n / 16)

/-- The 64-hex-character digest standing in for `hexdigest()`. -/
def digest64 (r : Record) : String :=
  String.mk (hexFixed 64 (recHash r))

/-- `hexdigest()[:8]`: the 8-character preset identifier derived from
the preset content (`json.dumps` runs before the `id` key is set, so
the digest is taken of the incoming preset). -/
def presetId (preset : Record) : String :=
  String.mk ((hexFixed 64 (recHash preset)).take 8)

/-- `UserPreferences.add_preset`: read the current presets (default
`[]`), set the derived `id` on the preset, append, keep the first 10
(`presets[:10]`), store via `set_preferences`, and return the new list.
If the stored `presets` value is not a list, `presets.append` raises
`AttributeError`. -/
def addPreset (st : Store) (userId : String) (preset : Record) :
    Except String (Store × List PVal) :=
  let prefs := getPreferences st userId
  match (dictGet prefs "presets").getD (PVal.list []) with
  | PVal.list presets =>
    let preset2 := dictSet preset "id" (PVal.str (presetId preset))
    let newList := (presets ++ [PVal.obj preset2]).take 10
    let prefs2 := dictSet prefs "presets" (PVal.list newList)
    Except.ok ((setPreferences st userId prefs2).1, newList)
  | _ => Except.error "AttributeError: object has no attribute append"

/-- Fold `n` `add_preset` calls for presets named `Preset 0`, ...,
`Preset n-1` over an initially empty store (the scenario of the spec's
15-preset test). -/
def runAddPresets (n : ℕ) : Store :=
  (List.range n).foldl
    (fun st i =>
      match addPreset st "user1" [("name", PVal.str ("Preset " ++ toString i))] with
      | Except.ok p => p.1
      | Except.error _ => st)
    []

/-- The `name` values of the stored presets of a record, in order. -/
def presetNames (r : Record) : List String :=
  match dictGet r "presets" with
  | some (PVal.list l) =>
    l.map (fun v =>
      match v with
      | PVal.obj o =>
        match dictGet o "name" with
        | some (PVal.str s) => s
        | _ => ""
      | _ => "")
  | _ => []

example : presetNames (getPreferences (runAddPresets 3) "user1")
    = ["Preset 0", "Preset 1", "Preset 2"] := by rfl
example : presetNames (getPreferences (runAddPresets 11) "user1")
    = ["Preset 0", "Preset 1", "Preset 2", "Preset 3", "Preset 4", "Preset 5",
       "Preset 6", "Preset 7", "Preset 8", "Preset 9"] := by rfl
example : (presetId [("name", PVal.str "My Preset")]).length = 8 := by rfl

theorem char_ne_of_toNat_ne {a b : Char} (h : a.toNat ≠ b.toNat) : a ≠ b :=
  fun e => h (e ▸ rfl)

theorem hexDigitVal_ranges {c : Char} {d : ℕ} (h : hexDigitVal c = some d) :
    (48 ≤ c.toNat ∧ c.toNat ≤ 57 ∧ d = c.toNat - 48) ∨
    (65 ≤ c.toNat ∧ c.toNat ≤ 70 ∧ d = c.toNat - 55) ∨
    (97 ≤ c.toNat ∧ c.toNat ≤ 102 ∧ d = c.toNat - 87) := by
  unfold hexDigitVal at h
  split_ifs at h with h1 h2 h3 <;>
    simp only [Option.some.injEq, reduceCtorEq] at h <;> omega

theorem hexDigitVal_lt {c : Char} {d : ℕ} (h : hexDigitVal c = some d) : d < 16 := by
  have := hexDigitVal_ranges h
  omega

theorem isHexDigitPy_some {c : Char} (h : isHexDigitPy c = true) :
    ∃ d, hexDigitVal c = some d := by
  unfold isHexDigitPy at h
  exact Option.isSome_iff_exists.mp h

theorem pyIsSpace_eq_false_of_hex {c : Char} {d : ℕ} (h : hexDigitVal c = some d) :
    pyIsSpace c = false := by
  have hr := hexDigitVal_ranges h
  simp only [pyIsSpace, decide_eq_false_iff_not]
  omega

theorem hexChar_ne_underscore {c : Char} {d : ℕ} (h : hexDigitVal c = some d) : c ≠ '_' := by
  have hr := hexDigitVal_ranges h
  refine char_ne_of_toNat_ne ?_
  intro e
  rw [show ('_').toNat = 95 from rfl] at e
  omega

theorem hexChar_ne_plus {c : Char} {d : ℕ} (h : hexDigitVal c = some d) : c ≠ '+' := by
  have hr := hexDigitVal_ranges h
  refine char_ne_of_toNat_ne ?_
  intro e
  rw [show ('+').toNat = 43 from rfl] at e
  omega

theorem hexChar_ne_minus {c : Char} {d : ℕ} (h : hexDigitVal c = some d) : c ≠ '-' := by
  have hr := hexDigitVal_ranges h
  refine char_ne_of_toNat_ne ?_
  intro e
  rw [show ('-').toNat = 45 from rfl] at e
  omega

theorem hexChar_ne_hash {c : Char} {d : ℕ} (h : hexDigitVal c = some d) : c ≠ '#' := by
  have hr := hexDigitVal_ranges h
  refine char_ne_of_toNat_ne ?_
  intro e
  rw [show ('#').toNat = 35 from rfl] at e
  omega

theorem dropWhile_eq_self_of {p : Char → Bool} {l : List Char}
    (h : ∀ c ∈ l, p c = false) : l.dropWhile p = l := by
  cases l with
  | nil => rfl
  | cons a t => simp [List.dropWhile_cons, h a (List.mem_cons_self a t)]

theorem pyStripL_eq_self {l : List Char} (h : ∀ c ∈ l, pyIsSpace c = false) :
    pyStripL l = l := by
  unfold pyStripL
  rw [dropWhile_eq_self_of h,
    dropWhile_eq_self_of (fun c hc => h c (List.mem_reverse.mp hc)),
    List.reverse_reverse]

theorem pyIntHex_pair {c1 c2 : Char} {d1 d2 : ℕ}
    (h1 : hexDigitVal c1 = some d1) (h2 : hexDigitVal c2 = some d2) :
    pyIntHex [c1, c2] = some ((16 * d1 + d2 : ℕ) : ℤ) := by
  have hs : pyStripL [c1, c2] = [c1, c2] := by
    refine pyStripL_eq_self ?_
    intro c hc
    simp only [List.mem_cons, List.not_mem_nil, or_false] at hc
    rcases hc with rfl | rfl
    · exact pyIsSpace_eq_false_of_hex h1
    · exact pyIsSpace_eq_false_of_hex h2
  unfold pyIntHex
  rw [hs]
  simp only [pyIntSigned]
  rw [if_neg (hexChar_ne_plus h1), if_neg (hexChar_ne_minus h1)]
  simp only [hexStart, h1, hexRest]
  rw [if_neg (hexChar_ne_underscore h2)]
  simp only [h2, hexRest]
  rfl

set_option maxRecDepth 8000 in
theorem formatHex02_spec : ∀ n : ℕ, n < 256 →
    (formatHex02 (n : ℤ)).length = 2 ∧
    (∀ c ∈ formatHex02 (n : ℤ), isHexDigitPy c = true) ∧
    pyIntHex (formatHex02 (n : ℤ)) = some (n : ℤ) := by decide

theorem hexToRgb_of_six {s : String} {a b c d e f : Char}
    {da db dc dd de df : ℕ}
    (hclean : hexCleaned s = [a, b, c, d, e, f])
    (ha : hexDigitVal a = some da) (hb : hexDigitVal b = some db)
    (hc : hexDigitVal c = some dc) (hd : hexDigitVal d = some dd)
    (he : hexDigitVal e = some de) (hf : hexDigitVal f = some df) :
    hexToRgb s = some (((16 * da + db : ℕ) : ℤ), ((16 * dc + dd : ℕ) : ℤ),
      ((16 * de + df : ℕ) : ℤ)) := by
  unfold hexToRgb
  rw [hclean]
  norm_num [List.take_succ_cons, List.drop_succ_cons]
  rw [pyIntHex_pair ha hb, pyIntHex_pair hc hd, pyIntHex_pair he hf]
  push_cast
  rfl

theorem six_of_length {α : Type} {l : List α} (h : l.length = 6) :
    ∃ a b c d e f, l = [a, b, c, d, e, f] := by
  rcases l with _ | ⟨a, _ | ⟨b, _ | ⟨c, _ | ⟨d, _ | ⟨e, _ | ⟨f, _ | ⟨g, t⟩⟩⟩⟩⟩⟩⟩ <;>
    simp at h
  exact ⟨a, b, c, d, e, f, rfl⟩

theorem hexToRgb_eq {s : String} {t : List Char} {x y z : ℤ}
    (hclean : hexCleaned s = t) (hlen : t.length = 6)
    (hx : pyIntHex (t.take 2) = some x) (hy : pyIntHex ((t.drop 2).take 2) = some y)
    (hz : pyIntHex ((t.drop 4).take 2) = some z) :
    hexToRgb s = some (x, y, z) := by
  unfold hexToRgb
  rw [hclean, if_pos hlen, hx, hy, hz]

theorem two_of_length {α : Type} {l : List α} (h : l.length = 2) :
    ∃ a b, l = [a, b] := by
  rcases l with _ | ⟨a, _ | ⟨b, _ | ⟨c, t⟩⟩⟩ <;> simp at h
  exact ⟨a, b, rfl⟩

/-- C4, complementary round trip: for a string whose cleaned form is six
hex digits, `hexToRgb` of the complementary colour is the channel-wise
complement. -/
theorem spec_C4_thm (s : String)
    (h6 : (hexCleaned s).length = 6)
    (hhex : ∀ c ∈ hexCleaned s, isHexDigitPy c = true) :
    ∃ r g b : ℤ, hexToRgb s = some (r, g, b) ∧
      0 ≤ r ∧ r ≤ 255 ∧ 0 ≤ g ∧ g ≤ 255 ∧ 0 ≤ b ∧ b ≤ 255 ∧
      (complementaryColor s).data.head? = some '#' ∧
      hexToRgb (complementaryColor s) = some (255 - r, 255 - g, 255 - b) := by
  obtain ⟨a, b, c, d, e, f, hl⟩ := six_of_length h6
  rw [hl] at hhex
  obtain ⟨da, hda⟩ := isHexDigitPy_some (hhex a (by simp))
  obtain ⟨db, hdb⟩ := isHexDigitPy_some (hhex b (by simp))
  obtain ⟨dc, hdc⟩ := isHexDigitPy_some (hhex c (by simp))
  obtain ⟨dd, hdd⟩ := isHexDigitPy_some (hhex d (by simp))
  obtain ⟨de, hde⟩ := isHexDigitPy_some (hhex e (by simp))
  obtain ⟨df, hdf⟩ := isHexDigitPy_some (hhex f (by simp))
  have hva : 16 * da + db < 256 := by
    have := hexDigitVal_lt hda; have := hexDigitVal_lt hdb; omega
  have hvb : 16 * dc + dd < 256 := by
    have := hexDigitVal_lt hdc; have := hexDigitVal_lt hdd; omega
  have hvc : 16 * de + df < 256 := by
    have := hexDigitVal_lt hde; have := hexDigitVal_lt hdf; omega
  have hparse : hexToRgb s = some (((16 * da + db : ℕ) : ℤ), ((16 * dc + dd : ℕ) : ℤ),
      ((16 * de + df : ℕ) : ℤ)) :=
    hexToRgb_of_six hl hda hdb hdc hdd hde hdf
  -- the three complement bytes
  obtain ⟨hlen1, hmem1, hp1⟩ := formatHex02_spec (255 - (16 * da + db)) (by omega)
  obtain ⟨hlen2, hmem2, hp2⟩ := formatHex02_spec (255 - (16 * dc + dd)) (by omega)
  obtain ⟨hlen3, hmem3, hp3⟩ := formatHex02_spec (255 - (16 * de + df)) (by omega)
  obtain ⟨u1, u2, hu12⟩ := two_of_length hlen1
  obtain ⟨u3, u4, hu34⟩ := two_of_length hlen2
  obtain ⟨u5, u6, hu56⟩ := two_of_length hlen3
  rw [hu12] at hmem1 hp1
  rw [hu34] at hmem2 hp2
  rw [hu56] at hmem3 hp3
  obtain ⟨x1, hx1⟩ := isHexDigitPy_some (hmem1 u1 (by simp))
  have hcast1 : (255 : ℤ) - ((16 * da + db : ℕ) : ℤ) = ((255 - (16 * da + db) : ℕ) : ℤ) := by
    omega
  have hcast2 : (255 : ℤ) - ((16 * dc + dd : ℕ) : ℤ) = ((255 - (16 * dc + dd) : ℕ) : ℤ) := by
    omega
  have hcast3 : (255 : ℤ) - ((16 * de + df : ℕ) : ℤ) = ((255 - (16 * de + df) : ℕ) : ℤ) := by
    omega
  have hcomp : complementaryColor s = String.mk ('#' :: ([u1, u2] ++ [u3, u4] ++ [u5, u6])) := by
    have e1 : complementaryColor s
        = String.mk ('#' :: (formatHex02 (255 - ((16 * da + db : ℕ) : ℤ))
            ++ formatHex02 (255 - ((16 * dc + dd : ℕ) : ℤ))
            ++ formatHex02 (255 - ((16 * de + df : ℕ) : ℤ)))) := by
      unfold complementaryColor
      rw [hparse]
    rw [hcast1, hcast2, hcast3, hu12, hu34, hu56] at e1
    exact e1
  have hclean2 : hexCleaned (complementaryColor s) = [u1, u2, u3, u4, u5, u6] := by
    rw [hcomp]
    unfold hexCleaned
    simp [List.dropWhile_cons, hexChar_ne_hash hx1]
  have hparse2 : hexToRgb (complementaryColor s)
      = some (((255 - (16 * da + db) : ℕ) : ℤ), ((255 - (16 * dc + dd) : ℕ) : ℤ),
        ((255 - (16 * de + df) : ℕ) : ℤ)) :=
    hexToRgb_eq hclean2 (by simp) hp1 hp2 hp3
  refine ⟨((16 * da + db : ℕ) : ℤ), ((16 * dc + dd : ℕ) : ℤ), ((16 * de + df : ℕ) : ℤ),
    hparse, by omega, by omega, by omega, by omega, by omega, by omega, by rw [hcomp]; rfl, ?_⟩
  rw [hparse2, hcast1, hcast2, hcast3]

/-- Witness for C4 at the concrete colour `ff0000`. -/
theorem spec_C4_witness : ∃ r g b : ℤ, hexToRgb "ff0000" = some (r, g, b) ∧
    0 ≤ r ∧ r ≤ 255 ∧ 0 ≤ g ∧ g ≤ 255 ∧ 0 ≤ b ∧ b ≤ 255 ∧
    (complementaryColor "ff0000").data.head? = some '#' ∧
    hexToRgb (complementaryColor "ff0000") = some (255 - r, 255 - g, 255 - b) :=
  spec_C4_thm "ff0000" (by decide) (by decide)

/-- Counterexample for C3: `int(·, 16)` accepts a signed slice, so
`hex_to_rgb("-10000")` parses even though `'-'` is not a hex digit, and
returns a component outside `0-255`; `lstrip('#')` also removes every
leading `'#'`, so `"##ff0000"` parses as well. -/
theorem spec_C3_cex :
    hexToRgb "-10000" = some (-1, 0, 0) ∧ isHexDigitPy '-' = false ∧
    ¬(0 : ℤ) ≤ -1 ∧ hexToRgb "##ff0000" = some (255, 0, 0) := by decide

/-- C3 as amended: after stripping all leading `'#'` and expanding a
length-3 string, a length other than 6 is invalid, and six hex digits
parse to three byte values in `0-255`; slices that are not pure hex
digit pairs may still parse via sign or whitespace (see the
counterexample). -/
theorem spec_C3_thm (s : String) :
    ((hexCleaned s).length ≠ 6 → hexToRgb s = none) ∧
    ((hexCleaned s).length = 6 → (∀ c ∈ hexCleaned s, isHexDigitPy c = true) →
      ∃ r g b : ℤ, hexToRgb s = some (r, g, b) ∧
        0 ≤ r ∧ r ≤ 255 ∧ 0 ≤ g ∧ g ≤ 255 ∧ 0 ≤ b ∧ b ≤ 255) := by
  constructor
  · intro h
    show (if (hexCleaned s).length = 6 then _ else none) = none
    rw [if_neg h]
  · intro h6 hhex
    obtain ⟨a, b, c, d, e, f, hl⟩ := six_of_length h6
    rw [hl] at hhex
    obtain ⟨da, hda⟩ := isHexDigitPy_some (hhex a (by simp))
    obtain ⟨db, hdb⟩ := isHexDigitPy_some (hhex b (by simp))
    obtain ⟨dc, hdc⟩ := isHexDigitPy_some (hhex c (by simp))
    obtain ⟨dd, hdd⟩ := isHexDigitPy_some (hhex d (by simp))
    obtain ⟨de, hde⟩ := isHexDigitPy_some (hhex e (by simp))
    obtain ⟨df, hdf⟩ := isHexDigitPy_some (hhex f (by simp))
    have hva := hexDigitVal_lt hda
    have hvb := hexDigitVal_lt hdb
    have hvc := hexDigitVal_lt hdc
    have hvd := hexDigitVal_lt hdd
    have hve := hexDigitVal_lt hde
    have hvf := hexDigitVal_lt hdf
    exact ⟨_, _, _, hexToRgb_of_six hl hda hdb hdc hdd hde hdf,
      by omega, by omega, by omega, by omega, by omega, by omega⟩

/-- Witness for C3 at `#12` (wrong length) and `ff0000` (six digits). -/
theorem spec_C3_witness : hexToRgb "#12" = none ∧
    (∃ r g b : ℤ, hexToRgb "ff0000" = some (r, g, b) ∧
      0 ≤ r ∧ r ≤ 255 ∧ 0 ≤ g ∧ g ≤ 255 ∧ 0 ≤ b ∧ b ≤ 255) :=
  ⟨(spec_C3_thm "#12").1 (by decide), (spec_C3_thm "ff0000").2 (by decide) (by decide)⟩

theorem pyMax_le {a b m : ℚ} (ha : a ≤ m) (hb : b ≤ m) : pyMax a b ≤ m := by
  unfold pyMax
  split_ifs <;> assumption

theorem le_pyMin {a b m : ℚ} (ha : m ≤ a) (hb : m ≤ b) : m ≤ pyMin a b := by
  unfold pyMin
  split_ifs <;> assumption

theorem pyMin_le_left (a b : ℚ) : pyMin a b ≤ a := by
  unfold pyMin
  split_ifs with h
  · exact le_of_lt h
  · exact le_refl a

theorem left_le_pyMax (a b : ℚ) : a ≤ pyMax a b := by
  unfold pyMax
  split_ifs with h
  · exact le_of_lt h
  · exact le_refl a

theorem rgbToHsl_ok {ri gi bi : ℤ} (h1 : 0 ≤ ri) (h2 : ri ≤ 255)
    (h3 : 0 ≤ gi) (h4 : gi ≤ 255) (h5 : 0 ≤ bi) (h6 : bi ≤ 255) :
    ∃ t, rgbToHsl ri gi bi = Except.ok t := by
  have hA0 : (0 : ℚ) ≤ (ri : ℚ) / 255 := by positivity
  have hB0 : (0 : ℚ) ≤ (gi : ℚ) / 255 := by positivity
  have hC0 : (0 : ℚ) ≤ (bi : ℚ) / 255 := by positivity
  have hA1 : (ri : ℚ) / 255 ≤ 1 := by
    rw [div_le_one (by norm_num)]
    exact_mod_cast h2
  have hB1 : (gi : ℚ) / 255 ≤ 1 := by
    rw [div_le_one (by norm_num)]
    exact_mod_cast h4
  have hC1 : (bi : ℚ) / 255 ≤ 1 := by
    rw [div_le_one (by norm_num)]
    exact_mod_cast h6
  have hmx1 : pyMax ((ri : ℚ) / 255) (pyMax ((gi : ℚ) / 255) ((bi : ℚ) / 255)) ≤ 1 :=
    pyMax_le hA1 (pyMax_le hB1 hC1)
  have hmn0 : (0 : ℚ) ≤ pyMin ((ri : ℚ) / 255) (pyMin ((gi : ℚ) / 255) ((bi : ℚ) / 255)) :=
    le_pyMin hA0 (le_pyMin hB0 hC0)
  have hmn1 : pyMin ((ri : ℚ) / 255) (pyMin ((gi : ℚ) / 255) ((bi : ℚ) / 255))
      ≤ pyMax ((ri : ℚ) / 255) (pyMax ((gi : ℚ) / 255) ((bi : ℚ) / 255)) :=
    le_trans (pyMin_le_left _ _) (left_le_pyMax _ _)
  simp only [rgbToHsl]
  split_ifs with hEq hl hden hden <;>
    first
      | exact ⟨_, rfl⟩
      | exact absurd (by linarith : pyMax ((ri : ℚ) / 255) (pyMax ((gi : ℚ) / 255) ((bi : ℚ) / 255))
          = pyMin ((ri : ℚ) / 255) (pyMin ((gi : ℚ) / 255) ((bi : ℚ) / 255))) hEq

/-- Counterexample for C7: `"-f0f00"` parses (via the signed slice
`"-f"`) to the out-of-range triple `(-15, 15, 0)`, and `color_to_sound`
then raises `ZeroDivisionError` inside `rgb_to_hsl` instead of
returning either a valid record or an error record. -/
theorem spec_C7_cex :
    hexToRgb "-f0f00" = some (-15, 15, 0) ∧
    colorToSound "-f0f00" = Except.error "ZeroDivisionError: float division by zero" := by
  constructor
  · decide
  · have h : hexToRgb "-f0f00" = some (-15, 15, 0) := by decide
    unfold colorToSound
    rw [h]
    norm_num [rgbToHsl, pyMax, pyMin, Except.map, colorSoundOk]

/-- C7 as amended: on an unparseable string the error record is
returned, carrying only the error message with defaults 440/sine and
null rgb/hsl; on a parseable string whose components are all in `0-255`
(always the case for pure hex digits) the valid fields are populated
with no error; parseable strings with out-of-range components can
instead raise `ZeroDivisionError` (see the counterexample). -/
theorem spec_C7_thm (s : String) :
    (hexToRgb s = none → colorToSound s = Except.ok errorColorSound ∧
      errorColorSound.error = some "Invalid color format" ∧
      errorColorSound.frequency = 440 ∧ errorColorSound.waveform = "sine" ∧
      errorColorSound.rgb = none ∧ errorColorSound.hsl = none ∧
      errorColorSound.volumeModifier = none ∧ errorColorSound.complementary = none) ∧
    (∀ r g b : ℤ, hexToRgb s = some (r, g, b) →
      0 ≤ r → r ≤ 255 → 0 ≤ g → g ≤ 255 → 0 ≤ b → b ≤ 255 →
      ∃ c, colorToSound s = Except.ok c ∧ c.error = none ∧ c.rgb = some (r, g, b) ∧
        c.hsl.isSome = true ∧ c.volumeModifier.isSome = true ∧
        c.complementary = some (complementaryColor s)) := by
  constructor
  · intro h
    unfold colorToSound
    rw [h]
    exact ⟨rfl, rfl, rfl, rfl, rfl, rfl, rfl, rfl⟩
  · intro r g b h hr0 hr1 hg0 hg1 hb0 hb1
    obtain ⟨t, ht⟩ := rgbToHsl_ok hr0 hr1 hg0 hg1 hb0 hb1
    have hred : colorToSound s = (rgbToHsl r g b).map (colorSoundOk s r g b) := by
      unfold colorToSound
      rw [h]
    rw [ht] at hred
    exact ⟨colorSoundOk s r g b t, hred, rfl, rfl, rfl, rfl, rfl⟩

/-- Witness for C7 at the unparseable `"zz"` and the valid `"ff0000"`. -/
theorem spec_C7_witness :
    colorToSound "zz" = Except.ok errorColorSound ∧
    (∃ c, colorToSound "ff0000" = Except.ok c ∧ c.error = none ∧
      c.rgb = some (255, 0, 0) ∧ c.hsl.isSome = true ∧ c.volumeModifier.isSome = true ∧
      c.complementary = some (complementaryColor "ff0000")) :=
  ⟨((spec_C7_thm "zz").1 (by decide)).1,
    (spec_C7_thm "ff0000").2 255 0 0 (by decide) (by decide) (by decide) (by decide)
      (by decide) (by decide) (by decide)⟩

theorem pyModQ_eval (x y : ℚ) (z : ℤ) (h1 : (z : ℚ) ≤ x / y) (h2 : x / y < z + 1) :
    pyModQ x y = x - y * z := by
  rw [pyModQ, floorEq (x / y) z h1 h2]

/-- C5: pattern selection by divisibility of the original signed number,
in the priority order 7, 5, 3, 2, with the documented example values,
and sign/magnitude of `-10`. -/
theorem spec_C5_thm :
    (∀ q : ℚ,
      (pyModQ q 7 = 0 → (numberToPattern q).pattern = "wave") ∧
      (pyModQ q 7 ≠ 0 → pyModQ q 5 = 0 → (numberToPattern q).pattern = "sweep") ∧
      (pyModQ q 7 ≠ 0 → pyModQ q 5 ≠ 0 → pyModQ q 3 = 0 →
        (numberToPattern q).pattern = "arpeggio") ∧
      (pyModQ q 7 ≠ 0 → pyModQ q 5 ≠ 0 → pyModQ q 3 ≠ 0 → pyModQ q 2 = 0 →
        (numberToPattern q).pattern = "pulse") ∧
      (pyModQ q 7 ≠ 0 → pyModQ q 5 ≠ 0 → pyModQ q 3 ≠ 0 → pyModQ q 2 ≠ 0 →
        (numberToPattern q).pattern = "steady") ∧
      (numberToPattern q).isNegative = decide (q < 0) ∧
      (numberToPattern q).magnitude = pyAbs q) ∧
    (numberToPattern 49).pattern = "wave" ∧
    (numberToPattern 25).pattern = "sweep" ∧
    (numberToPattern 9).pattern = "arpeggio" ∧
    (numberToPattern 4).pattern = "pulse" ∧
    (numberToPattern 1).pattern = "steady" ∧
    (numberToPattern (-10)).isNegative = true ∧
    (numberToPattern (-10)).magnitude = 10 := by
  have huniv : ∀ q : ℚ,
      (pyModQ q 7 = 0 → (numberToPattern q).pattern = "wave") ∧
      (pyModQ q 7 ≠ 0 → pyModQ q 5 = 0 → (numberToPattern q).pattern = "sweep") ∧
      (pyModQ q 7 ≠ 0 → pyModQ q 5 ≠ 0 → pyModQ q 3 = 0 →
        (numberToPattern q).pattern = "arpeggio") ∧
      (pyModQ q 7 ≠ 0 → pyModQ q 5 ≠ 0 → pyModQ q 3 ≠ 0 → pyModQ q 2 = 0 →
        (numberToPattern q).pattern = "pulse") ∧
      (pyModQ q 7 ≠ 0 → pyModQ q 5 ≠ 0 → pyModQ q 3 ≠ 0 → pyModQ q 2 ≠ 0 →
        (numberToPattern q).pattern = "steady") ∧
      (numberToPattern q).isNegative = decide (q < 0) ∧
      (numberToPattern q).magnitude = pyAbs q := by
    intro q
    refine ⟨fun h7 => by simp [numberToPattern, h7],
      fun h7 h5 => by simp [numberToPattern, h7, h5],
      fun h7 h5 h3 => by simp [numberToPattern, h7, h5, h3],
      fun h7 h5 h3 h2 => by simp [numberToPattern, h7, h5, h3, h2],
      fun h7 h5 h3 h2 => by simp [numberToPattern, h7, h5, h3, h2],
      by simp [numberToPattern], by simp [numberToPattern]⟩
  have m49x7 : pyModQ (49 : ℚ) 7 = 0 := by
    rw [pyModQ_eval 49 7 7 (by norm_num) (by norm_num)]; norm_num
  have m25x7 : pyModQ (25 : ℚ) 7 ≠ 0 := by
    rw [pyModQ_eval 25 7 3 (by norm_num) (by norm_num)]; norm_num
  have m25x5 : pyModQ (25 : ℚ) 5 = 0 := by
    rw [pyModQ_eval 25 5 5 (by norm_num) (by norm_num)]; norm_num
  have m9x7 : pyModQ (9 : ℚ) 7 ≠ 0 := by
    rw [pyModQ_eval 9 7 1 (by norm_num) (by norm_num)]; norm_num
  have m9x5 : pyModQ (9 : ℚ) 5 ≠ 0 := by
    rw [pyModQ_eval 9 5 1 (by norm_num) (by norm_num)]; norm_num
  have m9x3 : pyModQ (9 : ℚ) 3 = 0 := by
    rw [pyModQ_eval 9 3 3 (by norm_num) (by norm_num)]; norm_num
  have m4x7 : pyModQ (4 : ℚ) 7 ≠ 0 := by
    rw [pyModQ_eval 4 7 0 (by norm_num) (by norm_num)]; norm_num
  have m4x5 : pyModQ (4 : ℚ) 5 ≠ 0 := by
    rw [pyModQ_eval 4 5 0 (by norm_num) (by norm_num)]; norm_num
  have m4x3 : pyModQ (4 : ℚ) 3 ≠ 0 := by
    rw [pyModQ_eval 4 3 1 (by norm_num) (by norm_num)]; norm_num
  have m4x2 : pyModQ (4 : ℚ) 2 = 0 := by
    rw [pyModQ_eval 4 2 2 (by norm_num) (by norm_num)]; norm_num
  have m1x7 : pyModQ (1 : ℚ) 7 ≠ 0 := by
    rw [pyModQ_eval 1 7 0 (by norm_num) (by norm_num)]; norm_num
  have m1x5 : pyModQ (1 : ℚ) 5 ≠ 0 := by
    rw [pyModQ_eval 1 5 0 (by norm_num) (by norm_num)]; norm_num
  have m1x3 : pyModQ (1 : ℚ) 3 ≠ 0 := by
    rw [pyModQ_eval 1 3 0 (by norm_num) (by norm_num)]; norm_num
  have m1x2 : pyModQ (1 : ℚ) 2 ≠ 0 := by
    rw [pyModQ_eval 1 2 0 (by norm_num) (by norm_num)]; norm_num
  refine ⟨huniv, (huniv 49).1 m49x7, (huniv 25).2.1 m25x7 m25x5,
    (huniv 9).2.2.1 m9x7 m9x5 m9x3, (huniv 4).2.2.2.1 m4x7 m4x5 m4x3 m4x2,
    (huniv 1).2.2.2.2.1 m1x7 m1x5 m1x3 m1x2, ?_, ?_⟩
  · rw [(huniv (-10)).2.2.2.2.2.1]
    norm_num
  · rw [(huniv (-10)).2.2.2.2.2.2]
    norm_num [pyAbs]

/-- Witness for C5 at 49 (wave) and 4 (pulse). -/
theorem spec_C5_witness :
    (numberToPattern 49).pattern = "wave" ∧ (numberToPattern 4).pattern = "pulse" := by
  have m49x7 : pyModQ (49 : ℚ) 7 = 0 := by
    rw [pyModQ_eval 49 7 7 (by norm_num) (by norm_num)]; norm_num
  have m4x7 : pyModQ (4 : ℚ) 7 ≠ 0 := by
    rw [pyModQ_eval 4 7 0 (by norm_num) (by norm_num)]; norm_num
  have m4x5 : pyModQ (4 : ℚ) 5 ≠ 0 := by
    rw [pyModQ_eval 4 5 0 (by norm_num) (by norm_num)]; norm_num
  have m4x3 : pyModQ (4 : ℚ) 3 ≠ 0 := by
    rw [pyModQ_eval 4 3 1 (by norm_num) (by norm_num)]; norm_num
  have m4x2 : pyModQ (4 : ℚ) 2 = 0 := by
    rw [pyModQ_eval 4 2 2 (by norm_num) (by norm_num)]; norm_num
  exact ⟨(spec_C5_thm.1 49).1 m49x7, (spec_C5_thm.1 4).2.2.2.1 m4x7 m4x5 m4x3 m4x2⟩

theorem pyUpper_ascii_nonlower {c : Char} (h : c.toNat < 128)
    (hl : ¬(97 ≤ c.toNat ∧ c.toNat ≤ 122)) : pyUpper c = [c] := by
  have h1 : c ≠ 'ß' := char_ne_of_toNat_ne (by rw [show ('ß').toNat = 223 from rfl]; omega)
  have h2 : c ≠ 'ı' := char_ne_of_toNat_ne (by rw [show ('ı').toNat = 305 from rfl]; omega)
  have h3 : c ≠ 'ſ' := char_ne_of_toNat_ne (by rw [show ('ſ').toNat = 383 from rfl]; omega)
  unfold pyUpper
  rw [if_neg hl, if_neg h1, if_neg h2, if_neg h3]

theorem pyUpper_ascii_lower {c : Char} (hl : 97 ≤ c.toNat ∧ c.toNat ≤ 122) :
    pyUpper c = [Char.ofNat (c.toNat - 32)] := by
  unfold pyUpper
  rw [if_pos hl]

theorem charToFrequency_ascii_ok (scale : List ℕ) (c : Char) (h : c.toNat < 128) :
    ∃ k, charToFrequency scale c = Except.ok k := by
  by_cases hl : 97 ≤ c.toNat ∧ c.toNat ≤ 122
  · have hred : charToFrequency scale c
        = Except.ok (charCodeToSemis scale (Char.ofNat (c.toNat - 32)).toNat) := by
      unfold charToFrequency
      rw [pyUpper_ascii_lower hl]
    exact ⟨_, hred⟩
  · have hred : charToFrequency scale c = Except.ok (charCodeToSemis scale c.toNat) := by
      unfold charToFrequency
      rw [pyUpper_ascii_nonlower h hl]
    exact ⟨_, hred⟩

/-- C2: the code, not the claim, is at fault.  `char_to_frequency('ß')`
raises a `TypeError` (its uppercase is the two-character `"SS"`), and
`'ı'` uppercases into the letter range giving 19 semitones
(about 659.26 Hz), not the base frequency; for every ASCII character
that is neither a letter nor a digit the function does return the base
frequency `220·2^(0/12) = 220.0` as claimed. -/
theorem spec_C2_thm :
    charToFrequency pentatonicScale 'ß'
      = Except.error "TypeError: ord() expected a character, but string of length 2 found" ∧
    charToFrequency pentatonicScale 'ı' = Except.ok 19 ∧
    freqOfSemis 19 ≠ 220 ∧
    (∀ (scale : List ℕ) (c : Char), c.toNat < 128 →
      ¬(65 ≤ c.toNat ∧ c.toNat ≤ 90) → ¬(97 ≤ c.toNat ∧ c.toNat ≤ 122) →
      ¬(48 ≤ c.toNat ∧ c.toNat ≤ 57) →
      charToFrequency scale c = Except.ok 0) ∧
    freqOfSemis 0 = 220 := by
  refine ⟨by decide, by decide, ?_, ?_, ?_⟩
  · unfold freqOfSemis
    have h1 : (2 : ℝ) ^ (0 : ℝ) < 2 ^ (((19 : ℕ) : ℝ) / 12) := by
      rw [Real.rpow_lt_rpow_left_iff (by norm_num)]
      norm_num
    rw [Real.rpow_zero] at h1
    intro he
    nlinarith
  · intro scale c h hupper hlower hdigit
    have hred : charToFrequency scale c = Except.ok (charCodeToSemis scale c.toNat) := by
      unfold charToFrequency
      rw [pyUpper_ascii_nonlower h hlower]
    rw [hred]
    unfold charCodeToSemis
    rw [if_neg hupper, if_neg hdigit]
  · unfold freqOfSemis
    norm_num

/-- Witness for C2 at the ASCII punctuation character `'@'`. -/
theorem spec_C2_witness : charToFrequency pentatonicScale '@' = Except.ok 0 :=
  spec_C2_thm.2.2.2.1 pentatonicScale '@' (by decide) (by decide) (by decide) (by decide)

theorem textToFreqAux_ok (scale : List ℕ) :
    ∀ (cs : List Char) (i : ℕ), (∀ c ∈ cs, c.toNat < 128) →
    ∃ l, textToFreqAux scale i cs = Except.ok l ∧
      l.length = cs.length ∧
      l.map (fun m => m.char) = cs ∧
      (∀ j (hj : j < l.length), (l.get ⟨j, hj⟩).index = i + j) ∧
      (∀ m ∈ l, pyIsSpace m.char = true →
        m.semis = none ∧ m.note = "rest" ∧ m.duration = 1/10) := by
  intro cs
  induction cs with
  | nil =>
    intro i h
    exact ⟨[], rfl, rfl, rfl, by intro j hj; simp at hj, by intro m hm; simp at hm⟩
  | cons c cs ih =>
    intro i h
    obtain ⟨l, hl, hlen, hmap, hidx, hws⟩ :=
      ih (i + 1) (fun x hx => h x (List.mem_cons_of_mem _ hx))
    by_cases hsp : pyIsSpace c = true
    · refine ⟨(⟨i, c, none, "rest", 1/10⟩ : FrequencyMapping) :: l,
        ?_, by simp [hlen], by simp [hmap], ?_, ?_⟩
      · unfold textToFreqAux
        rw [if_pos hsp, hl]
        rfl
      · intro j hj
        cases j with
        | zero => simp
        | succ j2 =>
          have hj2 : j2 < l.length := by simpa using hj
          simp only [List.get_cons_succ]
          rw [show i + (j2 + 1) = i + 1 + j2 by omega]
          exact hidx j2 hj2
      · intro m hm hmws
        rcases List.mem_cons.mp hm with rfl | hm2
        · exact ⟨rfl, rfl, rfl⟩
        · exact hws m hm2 hmws
    · obtain ⟨k, hk⟩ := charToFrequency_ascii_ok scale c (h c (List.mem_cons_self _ _))
      refine ⟨(⟨i, c, some k, noteName k, 1/5⟩ : FrequencyMapping) :: l,
        ?_, by simp [hlen], by simp [hmap], ?_, ?_⟩
      · unfold textToFreqAux
        rw [if_neg hsp, hk, hl]
        rfl
      · intro j hj
        cases j with
        | zero => simp
        | succ j2 =>
          have hj2 : j2 < l.length := by simpa using hj
          simp only [List.get_cons_succ]
          rw [show i + (j2 + 1) = i + 1 + j2 by omega]
          exact hidx j2 hj2
      · intro m hm hmws
        rcases List.mem_cons.mp hm with rfl | hm2
        · exact absurd hmws (by simpa using hsp)
        · exact hws m hm2 hmws

/-- C8: the code, not the claim, is at fault on non-ASCII input —
`text_to_frequencies("ß")` raises the `char_to_frequency` `TypeError`
instead of returning a one-entry sequence.  Restricted to strings whose
characters are ASCII, the claimed shape holds: one entry per character
in input order, whitespace entries are rests with frequency 0 and
duration 0.1, and the empty string yields the empty sequence. -/
theorem spec_C8_thm :
    textToFrequencies pentatonicScale "ß"
      = Except.error "TypeError: ord() expected a character, but string of length 2 found" ∧
    (∀ (scale : List ℕ) (s : String), (∀ c ∈ s.data, c.toNat < 128) →
      ∃ l, textToFrequencies scale s = Except.ok l ∧
        l.length = s.length ∧
        l.map (fun m => m.char) = s.data ∧
        (∀ j (hj : j < l.length), (l.get ⟨j, hj⟩).index = j) ∧
        (∀ m ∈ l, pyIsSpace m.char = true →
          m.semis = none ∧ m.note = "rest" ∧ m.duration = 1/10) ∧
        (s = "" → l = [])) := by
  refine ⟨by decide, ?_⟩
  intro scale s h
  obtain ⟨l, hl, hlen, hmap, hidx, hws⟩ := textToFreqAux_ok scale s.data 0 h
  refine ⟨l, hl, by rw [hlen]; rfl, hmap, ?_, hws, ?_⟩
  · intro j hj
    simpa using hidx j hj
  · intro he
    subst he
    have h0 : l.length = 0 := by simpa using hlen
    exact List.eq_nil_of_length_eq_zero h0

/-- Witness for C8 at the ASCII string `"a b"`. -/
theorem spec_C8_witness :
    ∃ l, textToFrequencies pentatonicScale "a b" = Except.ok l ∧
      l.length = ("a b" : String).length ∧
      l.map (fun m => m.char) = ("a b" : String).data ∧
      (∀ j (hj : j < l.length), (l.get ⟨j, hj⟩).index = j) ∧
      (∀ m ∈ l, pyIsSpace m.char = true →
        m.semis = none ∧ m.note = "rest" ∧ m.duration = 1/10) ∧
      (("a b" : String) = "" → l = []) :=
  spec_C8_thm.2 pentatonicScale "a b" (by decide)

/-- C6: detection order color, then number, then text; non-string,
empty and whitespace-only input is unknown with a null value; the four
documented examples. -/
theorem spec_C6_thm :
    detectContentType PyInput.nonStr = ⟨"unknown", DetValue.null⟩ ∧
    (∀ s : String, pyStripL s.data = [] →
      detectContentType (PyInput.strVal s) = ⟨"unknown", DetValue.null⟩) ∧
    (∀ s : String, s ≠ "" → isColorString (pyStripL s.data) = true →
      detectContentType (PyInput.strVal s)
        = ⟨"color", DetValue.strV (String.mk (pyStripL s.data))⟩) ∧
    (∀ (s : String) (v : PyFloat), s ≠ "" → isColorString (pyStripL s.data) = false →
      pyParseFloat (String.mk (pyStripL s.data)) = some v →
      detectContentType (PyInput.strVal s) = ⟨"number", DetValue.numV v⟩) ∧
    (∀ s : String, s ≠ "" → pyStripL s.data ≠ [] →
      isColorString (pyStripL s.data) = false →
      pyParseFloat (String.mk (pyStripL s.data)) = none →
      detectContentType (PyInput.strVal s)
        = ⟨"text", DetValue.strV (String.mk (pyStripL s.data))⟩) ∧
    detectContentType (PyInput.strVal "#FF0000") = ⟨"color", DetValue.strV "#FF0000"⟩ ∧
    detectContentType (PyInput.strVal "42") = ⟨"number", DetValue.numV (PyFloat.finite 42)⟩ ∧
    detectContentType (PyInput.strVal "hello") = ⟨"text", DetValue.strV "hello"⟩ ∧
    detectContentType (PyInput.strVal "") = ⟨"unknown", DetValue.null⟩ := by
  refine ⟨rfl, ?_, ?_, ?_, ?_, by decide, by decide, by decide, by decide⟩
  · intro s hstrip
    by_cases hne : s = ""
    · subst hne
      rfl
    · simp only [detectContentType, if_neg hne, hstrip]
      rfl
  · intro s hne hcolor
    simp only [detectContentType, if_neg hne, hcolor]
    rfl
  · intro s v hne hcolor hparse
    simp only [detectContentType, if_neg hne, hcolor, hparse]
    rfl
  · intro s hne hne2 hcolor hparse
    simp only [detectContentType, if_neg hne, hcolor, hparse, if_pos hne2]
    simp

/-- Witness for C6 at a whitespace-only string and a padded number. -/
theorem spec_C6_witness :
    detectContentType (PyInput.strVal "   ") = ⟨"unknown", DetValue.null⟩ ∧
    detectContentType (PyInput.strVal "  42  ")
      = ⟨"number", DetValue.numV (PyFloat.finite 42)⟩ :=
  ⟨spec_C6_thm.2.1 "   " (by decide),
    spec_C6_thm.2.2.2.1 "  42  " (PyFloat.finite 42) (by decide) (by decide) (by decide)⟩

/-- C10: `float(·)` inside `detect_content_type` accepts `nan`, `inf`
and `infinity` in any letter case with an optional sign, classifying
them as numbers with a non-finite value, and `map_auto` hands that
value to `number_to_pattern`. -/
theorem spec_C10_thm :
    (detectContentType (PyInput.strVal "nan") = ⟨"number", DetValue.numV PyFloat.nan⟩ ∧
      PyFloat.nan.isFinite = false ∧
      mapAuto pentatonicScale (PyInput.strVal "nan")
        = (numberToPatternF PyFloat.nan).map
            (fun p => ⟨⟨"number", DetValue.numV PyFloat.nan⟩, AutoMapping.numberMapping p⟩)) ∧
    (detectContentType (PyInput.strVal "inf") = ⟨"number", DetValue.numV PyFloat.inf⟩ ∧
      PyFloat.inf.isFinite = false ∧
      mapAuto pentatonicScale (PyInput.strVal "inf")
        = (numberToPatternF PyFloat.inf).map
            (fun p => ⟨⟨"number", DetValue.numV PyFloat.inf⟩, AutoMapping.numberMapping p⟩)) ∧
    (detectContentType (PyInput.strVal "Infinity") = ⟨"number", DetValue.numV PyFloat.inf⟩ ∧
      mapAuto pentatonicScale (PyInput.strVal "Infinity")
        = (numberToPatternF PyFloat.inf).map
            (fun p => ⟨⟨"number", DetValue.numV PyFloat.inf⟩, AutoMapping.numberMapping p⟩)) ∧
    (detectContentType (PyInput.strVal "+NAN") = ⟨"number", DetValue.numV PyFloat.nan⟩ ∧
      mapAuto pentatonicScale (PyInput.strVal "+NAN")
        = (numberToPatternF PyFloat.nan).map
            (fun p => ⟨⟨"number", DetValue.numV PyFloat.nan⟩, AutoMapping.numberMapping p⟩)) ∧
    (detectContentType (PyInput.strVal "-Infinity")
        = ⟨"number", DetValue.numV PyFloat.negInf⟩ ∧
      PyFloat.negInf.isFinite = false ∧
      mapAuto pentatonicScale (PyInput.strVal "-Infinity")
        = (numberToPatternF PyFloat.negInf).map
            (fun p => ⟨⟨"number", DetValue.numV PyFloat.negInf⟩,
              AutoMapping.numberMapping p⟩)) := by
  decide

theorem dictGet_dictSet_self {α : Type} (d : List (String × α)) (k : String) (v : α) :
    dictGet (dictSet d k v) k = some v := by
  induction d with
  | nil => simp [dictSet, dictGet]
  | cons e rest ih =>
    obtain ⟨k2, v2⟩ := e
    by_cases h2 : k2 = k
    · subst h2
      simp [dictSet, dictGet]
    · by_cases hany : rest.any (fun e => e.1 = k)
    
      · have hstep : dictSet ((k2, v2) :: rest) k v
            = (k2, v2) :: rest.map (fun e => if e.1 = k then (k, v) else e) := by
          unfold dictSet
          rw [if_pos (by simp [hany, h2]), List.map_cons, if_neg h2]
        rw [hstep]
        have hrest : dictSet rest k v = rest.map (fun e => if e.1 = k then (k, v) else e) := by
          unfold dictSet
          rw [if_pos hany]
        simp only [dictGet, if_neg h2]
        rw [← hrest]
        exact ih
      · have hstep : dictSet ((k2, v2) :: rest) k v = (k2, v2) :: (rest ++ [(k, v)]) := by
          unfold dictSet
          rw [if_neg (by simp [hany, h2]), List.cons_append]
        rw [hstep]
        have hrest : dictSet rest k v = rest ++ [(k, v)] := by
          unfold dictSet
          rw [if_neg hany]
        simp only [dictGet, if_neg h2]
        rw [← hrest]
        exact ih

theorem dictGet_mapSet_ne {α : Type} (d : List (String × α)) (k k2 : String) (v : α)
    (hne : k2 ≠ k) :
    dictGet (d.map (fun e => if e.1 = k then (k, v) else e)) k2 = dictGet d k2 := by
  induction d with
  | nil => rfl
  | cons e rest ih =>
    obtain ⟨ke, ve⟩ := e
    simp only [List.map_cons]
    by_cases hke : ke = k
    · subst hke
      have hh : (if (ke, ve).1 = ke then (ke, v) else (ke, ve)) = (ke, v) := by simp
      rw [hh]
      simp only [dictGet, if_neg (Ne.symm hne)]
      exact ih
    · have hh : (if (ke, ve).1 = k then (k, v) else (ke, ve)) = (ke, ve) := by simp [hke]
      rw [hh]
      by_cases hk2 : ke = k2
      · simp [dictGet, hk2]
      · simp only [dictGet, if_neg hk2]
        exact ih

theorem dictGet_append_single_ne {α : Type} (d : List (String × α)) (k k2 : String) (v : α)
    (hne : k2 ≠ k) :
    dictGet (d ++ [(k, v)]) k2 = dictGet d k2 := by
  induction d with
  | nil => simp [dictGet, Ne.symm hne]
  | cons e rest ih =>
    obtain ⟨ke, ve⟩ := e
    by_cases hke : ke = k2
    · simp [dictGet, hke]
    · simp only [List.cons_append, dictGet, if_neg hke]
      exact ih

theorem dictGet_dictSet_ne {α : Type} (d : List (String × α)) (k k2 : String) (v : α)
    (hne : k2 ≠ k) : dictGet (dictSet d k v) k2 = dictGet d k2 := by
  unfold dictSet
  split_ifs with hany
  · exact dictGet_mapSet_ne d k k2 v hne
  · exact dictGet_append_single_ne d k k2 v hne

theorem dictGet_dictUpdate_not_mem (d p : Record) (k : String)
    (h : ∀ e ∈ p, e.1 ≠ k) : dictGet (dictUpdate d p) k = dictGet d k := by
  induction p generalizing d with
  | nil => rfl
  | cons e rest ih =>
    have hstep : dictUpdate d (e :: rest) = dictUpdate (dictSet d e.1 e.2) rest := by
      simp [dictUpdate]
    rw [hstep, ih (dictSet d e.1 e.2) (fun x hx => h x (List.mem_cons_of_mem _ hx)),
      dictGet_dictSet_ne d e.1 k e.2 (fun hk => h e (List.mem_cons_self _ _) hk.symm)]

theorem dictGet_dictUpdate_of (d p : Record) (k : String) (v : PVal)
    (hall : ∀ e ∈ p, e.1 = k → e.2 = v) (hsome : ∃ e ∈ p, e.1 = k) :
    dictGet (dictUpdate d p) k = some v := by
  induction p generalizing d with
  | nil =>
    obtain ⟨e, he, _⟩ := hsome
    exact absurd he (List.not_mem_nil e)
  | cons e rest ih =>
    have hstep : dictUpdate d (e :: rest) = dictUpdate (dictSet d e.1 e.2) rest := by
      simp [dictUpdate]
    rw [hstep]
    by_cases hk : e.1 = k
    · have hv : e.2 = v := hall e (List.mem_cons_self _ _) hk
      by_cases hr : ∃ x ∈ rest, x.1 = k
      · exact ih (dictSet d e.1 e.2) (fun x hx hxk => hall x (List.mem_cons_of_mem _ hx) hxk) hr
      · rw [dictGet_dictUpdate_not_mem (dictSet d e.1 e.2) rest k
          (fun x hx hxk => hr ⟨x, hx, hxk⟩), ← hk, ← hv]
        exact dictGet_dictSet_self d e.1 e.2
    · obtain ⟨x, hx, hxk⟩ := hsome
      rcases List.mem_cons.mp hx with rfl | hx2
      · exact absurd hxk hk
      · exact ih (dictSet d e.1 e.2) (fun y hy hyk => hall y (List.mem_cons_of_mem _ hy) hyk)
          ⟨x, hx2, hxk⟩

/-- C9: a never-written user reads the exact documented defaults, and
`set_preferences` shallow-merges: keys of the partial record take their
new values, every other key keeps its previous value. -/
theorem spec_C9_thm :
    (∀ (st : Store) (u : String), storeGet st (getUserId u) = none →
      getPreferences st u = defaultPrefs) ∧
    defaultPrefs = [("volume", PVal.num 50), ("speed", PVal.num 5),
      ("intensity", PVal.num 70), ("scale", PVal.str "pentatonic"),
      ("presets", PVal.list [])] ∧
    (∀ (st : Store) (u : String) (p : Record) (k : String) (v : PVal),
      (∀ e ∈ p, e.1 = k → e.2 = v) → (∃ e ∈ p, e.1 = k) →
      dictGet (getPreferences (setPreferences st u p).1 u) k = some v) ∧
    (∀ (st : Store) (u : String) (p : Record) (k : String),
      (∀ e ∈ p, e.1 ≠ k) →
      dictGet (getPreferences (setPreferences st u p).1 u) k
        = dictGet (getPreferences st u) k) := by
  refine ⟨?_, rfl, ?_, ?_⟩
  · intro st u h
    unfold getPreferences
    rw [h]
    rfl
  · intro st u p k v hall hsome
    show dictGet ((storeGet (storeSet st (getUserId u)
      (dictUpdate (getPreferences st u) p)) (getUserId u)).getD defaultPrefs) k = some v
    unfold storeGet storeSet
    rw [dictGet_dictSet_self, Option.getD_some]
    exact dictGet_dictUpdate_of (getPreferences st u) p k v hall hsome
  · intro st u p k h
    show dictGet ((storeGet (storeSet st (getUserId u)
      (dictUpdate (getPreferences st u) p)) (getUserId u)).getD defaultPrefs) k
      = dictGet (getPreferences st u) k
    unfold storeGet storeSet
    rw [dictGet_dictSet_self, Option.getD_some]
    exact dictGet_dictUpdate_not_mem (getPreferences st u) p k h

/-- Witness for C9: a fresh user gets the defaults; setting volume to 80
updates volume and leaves speed unchanged. -/
theorem spec_C9_witness :
    getPreferences [] "alice" = defaultPrefs ∧
    dictGet (getPreferences
      (setPreferences [] "alice" [("volume", PVal.num 80)]).1 "alice") "volume"
      = some (PVal.num 80) ∧
    dictGet (getPreferences
      (setPreferences [] "alice" [("volume", PVal.num 80)]).1 "alice") "speed"
      = dictGet (getPreferences [] "alice") "speed" :=
  ⟨spec_C9_thm.1 [] "alice" rfl,
    spec_C9_thm.2.2.1 [] "alice" [("volume", PVal.num 80)] "volume" (PVal.num 80)
      (by
        intro e he hk
        simp only [List.mem_singleton] at he
        subst he
        rfl)
      ⟨("volume", PVal.num 80), by simp, rfl⟩,
    spec_C9_thm.2.2.2 [] "alice" [("volume", PVal.num 80)] "speed"
      (by
        intro e he
        simp only [List.mem_singleton] at he
        subst he
        decide)⟩

theorem dictSet_all_eq {α : Type} (d : List (String × α)) (k : String) (v : α) :
    ∀ e ∈ dictSet d k v, e.1 = k → e.2 = v := by
  intro e he hk
  unfold dictSet at he
  split_ifs at he with hany
  · obtain ⟨x, hx, hfx⟩ := List.mem_map.mp he
    by_cases hxk : x.1 = k
    · rw [if_pos hxk] at hfx
      rw [← hfx]
    · rw [if_neg hxk] at hfx
      subst hfx
      exact absurd hk hxk
  · rcases List.mem_append.mp he with h1 | h2
    · exact absurd (List.any_eq_true.mpr ⟨e, h1, by simp [hk]⟩) hany
    · simp only [List.mem_singleton] at h2
      subst h2
      rfl

theorem dictSet_mem_key {α : Type} (d : List (String × α)) (k : String) (v : α) :
    ∃ e ∈ dictSet d k v, e.1 = k := by
  unfold dictSet
  split_ifs with hany
  · rw [List.any_eq_true] at hany
    obtain ⟨x, hx, hxk⟩ := hany
    exact ⟨(k, v), List.mem_map.mpr ⟨x, hx, by simp [show x.1 = k from by simpa using hxk]⟩, rfl⟩
  · exact ⟨(k, v), List.mem_append.mpr (Or.inr (by simp)), rfl⟩

theorem getPreferences_after_set (st : Store) (u : String) (p : Record) :
    getPreferences (setPreferences st u p).1 u = dictUpdate (getPreferences st u) p := by
  show (storeGet (storeSet st (getUserId u) (dictUpdate (getPreferences st u) p))
    (getUserId u)).getD defaultPrefs = _
  unfold storeGet storeSet
  rw [dictGet_dictSet_self, Option.getD_some]

theorem hexFixed_length : ∀ (k n : ℕ), (hexFixed k n).length = k := by
  intro k
  induction k with
  | zero => intro n; rfl
  | succ k2 ih => intro n; simp [hexFixed, ih]

theorem presetId_length (p : Record) : (presetId p).length = 8 := by
  unfold presetId
  show ((hexFixed 64 (recHash p)).take 8).length = 8
  rw [List.length_take, hexFixed_length]
  norm_num

/-- C1 as amended: `add_preset` derives an 8-character identifier from
the preset content, appends the preset, and truncates with
`presets[:10]`, keeping the FIRST ten presets (the oldest), not the most
recent; after 15 additions exactly ten are stored — the ten earliest. -/
theorem spec_C1_thm :
    (∀ (st : Store) (u : String) (preset : Record) (l : List PVal),
      dictGet (getPreferences st u) "presets" = some (PVal.list l) →
      ∃ st2,
        addPreset st u preset = Except.ok (st2,
          (l ++ [PVal.obj (dictSet preset "id" (PVal.str (presetId preset)))]).take 10) ∧
        dictGet (getPreferences st2 u) "presets" = some (PVal.list
          ((l ++ [PVal.obj (dictSet preset "id" (PVal.str (presetId preset)))]).take 10)) ∧
        (presetId preset).length = 8) ∧
    presetNames (getPreferences (runAddPresets 15) "user1")
      = ["Preset 0", "Preset 1", "Preset 2", "Preset 3", "Preset 4", "Preset 5",
         "Preset 6", "Preset 7", "Preset 8", "Preset 9"] := by
  constructor
  · intro st u preset l hpre
    have hred : addPreset st u preset = Except.ok
        ((setPreferences st u (dictSet (getPreferences st u) "presets"
          (PVal.list ((l ++ [PVal.obj (dictSet preset "id"
            (PVal.str (presetId preset)))]).take 10)))).1,
         (l ++ [PVal.obj (dictSet preset "id" (PVal.str (presetId preset)))]).take 10) := by
      simp only [addPreset]
      rw [hpre]
      rfl
    refine ⟨_, hred, ?_, presetId_length preset⟩
    rw [getPreferences_after_set]
    exact dictGet_dictUpdate_of _ _ _ _ (dictSet_all_eq _ _ _) (dictSet_mem_key _ _ _)
  · rfl

/-- Counterexample for C1: after 11 additions the stored presets are the
first ten, and the most recent preset (`Preset 10`) is absent —
truncation does not keep the most recent presets. -/
theorem spec_C1_cex :
    presetNames (getPreferences (runAddPresets 11) "user1")
      = ["Preset 0", "Preset 1", "Preset 2", "Preset 3", "Preset 4", "Preset 5",
         "Preset 6", "Preset 7", "Preset 8", "Preset 9"] ∧
    "Preset 10" ∉ presetNames (getPreferences (runAddPresets 11) "user1") := by
  refine ⟨rfl, ?_⟩
  rw [show presetNames (getPreferences (runAddPresets 11) "user1")
    = ["Preset 0", "Preset 1", "Preset 2", "Preset 3", "Preset 4", "Preset 5",
       "Preset 6", "Preset 7", "Preset 8", "Preset 9"] from rfl]
  decide

/-- Witness for C1 on a fresh store. -/
theorem spec_C1_witness : ∃ st2,
    addPreset [] "user1" [("name", PVal.str "A")] = Except.ok (st2,
      (([] : List PVal) ++ [PVal.obj (dictSet [("name", PVal.str "A")] "id"
        (PVal.str (presetId [("name", PVal.str "A")])))]).take 10) ∧
    dictGet (getPreferences st2 "user1") "presets" = some (PVal.list
      ((([] : List PVal) ++ [PVal.obj (dictSet [("name", PVal.str "A")] "id"
        (PVal.str (presetId [("name", PVal.str "A")])))]).take 10)) ∧
    (presetId [("name", PVal.str "A")]).length = 8 :=
  spec_C1_thm.1 [] "user1" [("name", PVal.str "A")] [] rfl
